import Mathlib

/-!
# tristate: a three-valued flag value

A shallow embedding of `tristate.go` (package `tristate`): the integer type
`TriState` with its members `None`, `False`, `True`, and the methods `String`,
`Set`, `Bool`, `Match`, `IsSet` together with `newTriState` and the eight
functions that define a flag.

Modelling conventions.

* A Go `string` is an arbitrary sequence of bytes; it is modelled as a list of
  byte values (`List Nat`).  Source literals are written with `str`, which
  gives the UTF-8 bytes of a literal.
* A method with a pointer receiver reads and writes the `TriState` behind the
  pointer.  It is modelled by explicit state passing: the value stored behind
  the pointer is an argument, and a method that writes returns the stored
  value after the call.
* Where the identity of a pointer matters (`newTriState` and the functions
  that define a flag) the variables live in a `Heap`, a pointer is an address
  of it, and `new` allocates the next free address.
* The flag set of `github.com/spf13/pflag` is outside this package.  Its state
  is a type parameter `FS` and its method `VarP` a parameter of the model; the
  package variable `CommandLine` is passed as an argument.
* A Go `error` result is `Option error`, `none` being `nil`.
* `strings.ToLower` belongs to the Go standard library.  Its ASCII path is
  modelled as the library writes it; its path for strings that hold a byte
  `>= 0x80`, `strings.Map(unicode.ToLower, s)`, depends on the Unicode case
  tables and is a parameter `mapLower` of the model.
-/

namespace tristate

/-- Go's `bool`. -/
abbrev bool := Bool

/-- Go's `string`: a sequence of bytes. -/
abbrev string := List Nat

/-- The bytes (UTF-8) of a source literal. -/
def str (s : String) : string :=
  (s.data.flatMap String.utf8EncodeChar).map UInt8.toNat

/-- Go's `utf8.RuneSelf`: bytes below it are ASCII characters. -/
def RuneSelf : Nat := 0x80

/-- The test `'A' <= c && c <= 'Z'` of `strings.ToLower`. -/
def isUpperASCII (c : Nat) : Bool := decide (65 ≤ c) && decide (c ≤ 90)

/-- The ASCII loop of `strings.ToLower`: `c += 'a' - 'A'` on every byte in
`'A'..'Z'`, every other byte copied. -/
def lowerASCII (s : string) : string :=
  s.map (fun c => if isUpperASCII c then c + (97 - 65) else c)

/-- Go's `strings.ToLower`.  The first loop decides `isASCII` and `hasUpper`;
an ASCII string without upper-case letters is returned as it is, an ASCII
string with some is rewritten by the ASCII loop, and any other string is
handed to `strings.Map(unicode.ToLower, s)`, here `mapLower`. -/
def ToLower (mapLower : string → string) (s : string) : string :=
  if s.all (fun c => decide (c < RuneSelf)) then
    if !(s.any isUpperASCII) then s else lowerASCII s
  else mapLower s

/-- The type `TriState int`. -/
abbrev TriState := Int

/-- The constant `None TriState = iota`. -/
@[reducible] def None : TriState := 0
/-- The constant `False`, the second of the `iota` block. -/
@[reducible] def False : TriState := 1
/-- The constant `True`, the third of the `iota` block. -/
@[reducible] def True : TriState := 2

/-- Go's `new(TriState)` and `var ts TriState`: storage holding the zero value
of the underlying `int`. -/
def zeroValue : TriState := (0 : Int)

/-- An error value made by `errors.New`, told apart by its text. -/
structure error where
  text : String
  deriving DecidableEq, Repr

/-- The variable `ErrBadTriStateValue = errors.New("bad tristate value")`. -/
def ErrBadTriStateValue : error := ⟨"bad tristate value"⟩

/-- The memory that holds the `TriState` variables: the value stored at each
address, and the first address that is not yet allocated. -/
structure Heap where
  cell : Nat → TriState
  next : Nat

/-- The assignment `*p = val`. -/
def store (h : Heap) (p : Nat) (val : TriState) : Heap :=
  ⟨fun q => if q = p then val else h.cell q, h.next⟩

/-- Go's `new(TriState)`: the next free address is allocated, holds the zero
value, and is returned. -/
def new (h : Heap) : Heap × Nat :=
  (⟨fun q => if q = h.next then zeroValue else h.cell q, h.next + 1⟩, h.next)

/-- The function `newTriState(val, p)`: `*p = val`, and `p` is returned. -/
def newTriState (h : Heap) (val : TriState) (p : Nat) : Heap × Nat :=
  (store h p val, p)

/-- The function `FlagVarPFS`: `fs.VarP(newTriState(value, ts), name, shorthand,
usage)`.  The result is the flag set and the memory after the call. -/
def FlagVarPFS {FS : Type} (VarP : FS → Heap → Nat → string → string → string → FS)
    (fs : FS) (h : Heap) (ts : Nat) (name shorthand : string) (value : TriState)
    (usage : string) : FS × Heap :=
  let r := newTriState h value ts
  (VarP fs r.1 r.2 name shorthand usage, r.1)

/-- The function `FlagVarFS`: `FlagVarPFS` with the shorthand `""`. -/
def FlagVarFS {FS : Type} (VarP : FS → Heap → Nat → string → string → string → FS)
    (fs : FS) (h : Heap) (ts : Nat) (name : string) (value : TriState)
    (usage : string) : FS × Heap :=
  FlagVarPFS VarP fs h ts name (str "") value usage

/-- The function `FlagPFS`: `ts := new(TriState)`, then `FlagVarPFS` on it, and
`ts` is returned.  The result is the flag set and the memory after the call
and the returned pointer. -/
def FlagPFS {FS : Type} (VarP : FS → Heap → Nat → string → string → string → FS)
    (fs : FS) (h : Heap) (name shorthand : string) (value : TriState)
    (usage : string) : FS × Heap × Nat :=
  let a := new h
  let r := FlagVarPFS VarP fs a.1 a.2 name shorthand value usage
  (r.1, r.2, a.2)

/-- The function `FlagFS`: `FlagPFS` with the shorthand `""`. -/
def FlagFS {FS : Type} (VarP : FS → Heap → Nat → string → string → string → FS)
    (fs : FS) (h : Heap) (name : string) (value : TriState)
    (usage : string) : FS × Heap × Nat :=
  FlagPFS VarP fs h name (str "") value usage

/-- The function `FlagVarP`: `FlagVarPFS` on the flag set `CommandLine`. -/
def FlagVarP {FS : Type} (VarP : FS → Heap → Nat → string → string → string → FS)
    (CommandLine : FS) (h : Heap) (ts : Nat) (name shorthand : string) (value : TriState)
    (usage : string) : FS × Heap :=
  FlagVarPFS VarP CommandLine h ts name shorthand value usage

/-- The function `FlagVar`: `FlagVarFS` on the flag set `CommandLine`. -/
def FlagVar {FS : Type} (VarP : FS → Heap → Nat → string → string → string → FS)
    (CommandLine : FS) (h : Heap) (ts : Nat) (name : string) (value : TriState)
    (usage : string) : FS × Heap :=
  FlagVarFS VarP CommandLine h ts name value usage

/-- The function `FlagP`: `FlagPFS` on the flag set `CommandLine`. -/
def FlagP {FS : Type} (VarP : FS → Heap → Nat → string → string → string → FS)
    (CommandLine : FS) (h : Heap) (name shorthand : string) (value : TriState)
    (usage : string) : FS × Heap × Nat :=
  FlagPFS VarP CommandLine h name shorthand value usage

/-- The function `Flag`: `FlagFS` on the flag set `CommandLine`. -/
def Flag {FS : Type} (VarP : FS → Heap → Nat → string → string → string → FS)
    (CommandLine : FS) (h : Heap) (name : string) (value : TriState)
    (usage : string) : FS × Heap × Nat :=
  FlagFS VarP CommandLine h name value usage

/-- The method `(ts TriState) String()`: a switch without a default case over
a variable that starts as the empty string. -/
def String (ts : TriState) : string :=
  if ts = None then str "None"
  else if ts = False then str "False"
  else if ts = True then str "True"
  else str ""

/-- A call `p.String()` on a pointer `p`: Go calls the value method on `*p`.
The memory `mem` gives the value stored at each address. -/
def StringPtr (mem : Nat → TriState) (p : Nat) : string := String (mem p)

/-- The expression list of the first `case` of the switch in `Set`. -/
def caseTrue : List string := [str "1", str "t", str "y", str "true", str "yes"]

/-- The expression list of the second `case` of the switch in `Set`. -/
def caseFalse : List string := [str "0", str "f", str "n", str "false", str "no"]

/-- The expression list of the third `case` of the switch in `Set`. -/
def caseNone : List string :=
  [str "-1", str "u", str "e", str "b", str "a", str "unknown", str "either", str "both",
    str "all", str "any", str "none", str "null", str "nil"]

/-- The method `(ts *TriState) Set(s)`.  The argument `ts` is the value of
`*ts` before the call; the result is the value of `*ts` after the call and the
returned error.  A `case` of the switch is taken when the tag equals one of
its expressions, the cases being tried in order. -/
def Set (mapLower : string → string) (ts : TriState) (s : string) :
    TriState × Option error :=
  let l := ToLower mapLower s
  if l ∈ caseTrue then (True, none)
  else if l ∈ caseFalse then (False, none)
  else if l ∈ caseNone then (None, none)
  else (ts, some ErrBadTriStateValue)

/-- The method `(ts *TriState) Bool()`: `nil` is `none`, a pointer to the local
`b` is `some b`.  The local starts as `false` and the switch has no default
case. -/
def Bool (ts : TriState) : Option bool :=
  if ts = None then none
  else if ts = False then some false
  else if ts = True then some true
  else some false

/-- The method `(ts *TriState) Match(b, noneVal)`. -/
def Match (ts : TriState) (b noneVal : bool) : bool :=
  match Bool ts with
  | some bp => bp == b
  | none => noneVal

/-- The method `(ts *TriState) IsSet()`. -/
def IsSet (ts : TriState) : bool := decide (ts ≠ None)

/-! ## Vocabulary of the statements -/

/-- Two bytes are one letter up to case: they are equal, or one is an ASCII
upper-case letter and the other its lower-case form. -/
def sameLetter (c d : Nat) : bool :=
  c == d || (isUpperASCII c && d == c + 32) || (isUpperASCII d && c == d + 32)

/-- The string `s` is the string `l` with the case of some of its letters
changed: same length, and position by position the same letter up to case. -/
def caseVariant : string → string → bool
  | [], [] => true
  | c :: s, d :: l => sameLetter c d && caseVariant s l
  | _, _ => false

/-- A switch whose cases are tried in the order of the list `cases`, each case
a list of expressions with the value it assigns: the value of the first case
that holds the tag, if there is one. -/
def switchOn : List (List string × TriState) → string → Option TriState
  | [], _ => none
  | (c, v) :: rest, l => if l ∈ c then some v else switchOn rest l

/-- The method `Set` with the cases of its switch tried in the order of the
list `cases`, the default case last. -/
def SetCases (cases : List (List string × TriState)) (mapLower : string → string)
    (ts : TriState) (s : string) : TriState × Option error :=
  match switchOn cases (ToLower mapLower s) with
  | some v => (v, none)
  | none => (ts, some ErrBadTriStateValue)

/-! ## Helper lemmas -/

/-- The result of `Set` depends on its input only through the lowered input. -/
theorem Set_congr_lower (mapLower : string → string) (ts : TriState) (s t : string)
    (h : ToLower mapLower s = ToLower mapLower t) :
    Set mapLower ts s = Set mapLower ts t := by
  unfold Set
  rw [h]

/-- The first case of the switch. -/
theorem Set_of_mem_caseTrue (mapLower : string → string) (ts : TriState) (s : string)
    (h : ToLower mapLower s ∈ caseTrue) : Set mapLower ts s = (True, none) := by
  unfold Set
  exact if_pos h

/-- The second case of the switch; no expression of it is in the first. -/
theorem Set_of_mem_caseFalse (mapLower : string → string) (ts : TriState) (s : string)
    (h : ToLower mapLower s ∈ caseFalse) : Set mapLower ts s = (False, none) := by
  have h1 : ToLower mapLower s ∉ caseTrue :=
    (by decide : ∀ x ∈ caseFalse, x ∉ caseTrue) _ h
  unfold Set
  exact (if_neg h1).trans (if_pos h)

/-- The third case of the switch; no expression of it is in the first two. -/
theorem Set_of_mem_caseNone (mapLower : string → string) (ts : TriState) (s : string)
    (h : ToLower mapLower s ∈ caseNone) : Set mapLower ts s = (None, none) := by
  have h1 : ToLower mapLower s ∉ caseTrue :=
    (by decide : ∀ x ∈ caseNone, x ∉ caseTrue) _ h
  have h2 : ToLower mapLower s ∉ caseFalse :=
    (by decide : ∀ x ∈ caseNone, x ∉ caseFalse) _ h
  unfold Set
  exact (if_neg h1).trans ((if_neg h2).trans (if_pos h))

/-- The default case of the switch. -/
theorem Set_of_not_mem (mapLower : string → string) (ts : TriState) (s : string)
    (h : ToLower mapLower s ∉ caseTrue ++ caseFalse ++ caseNone) :
    Set mapLower ts s = (ts, some ErrBadTriStateValue) := by
  simp only [List.mem_append, not_or] at h
  unfold Set
  exact (if_neg h.1.1).trans ((if_neg h.1.2).trans (if_neg h.2))

/-- The error result of `Set` is `nil` exactly on the expressions of the three
cases. -/
theorem Set_snd_eq_none_iff (mapLower : string → string) (ts : TriState) (s : string) :
    (Set mapLower ts s).2 = none ↔
      ToLower mapLower s ∈ caseTrue ++ caseFalse ++ caseNone := by
  by_cases h : ToLower mapLower s ∈ caseTrue ++ caseFalse ++ caseNone
  · simp only [h, iff_true]
    simp only [List.mem_append] at h
    rcases h with (h | h) | h
    · rw [Set_of_mem_caseTrue mapLower ts s h]
    · rw [Set_of_mem_caseFalse mapLower ts s h]
    · rw [Set_of_mem_caseNone mapLower ts s h]
  · simp only [h, iff_false]
    rw [Set_of_not_mem mapLower ts s h]
    exact fun h0 => Option.noConfusion h0

/-- An ASCII literal without upper-case letters is its own lowered form. -/
theorem ToLower_of_lower (mapLower : string → string) (l : string)
    (h1 : l.all (fun c => decide (c < RuneSelf)) = true) (h2 : l.any isUpperASCII = false) :
    ToLower mapLower l = l := by
  unfold ToLower
  rw [if_pos h1, h2]
  rfl

/-- The ASCII loop changes nothing in a string without upper-case letters. -/
theorem lowerASCII_of_no_upper (s : string) (h : s.any isUpperASCII = false) :
    lowerASCII s = s := by
  induction s with
  | nil => rfl
  | cons c s ih =>
    simp only [List.any_cons, Bool.or_eq_false_iff] at h
    simp only [lowerASCII, List.map_cons, h.1, Bool.false_eq_true, if_false]
    exact congrArg (List.cons c) (ih h.2)

/-- On an ASCII string `ToLower` is the ASCII loop. -/
theorem ToLower_of_ascii (mapLower : string → string) (s : string)
    (h : s.all (fun c => decide (c < RuneSelf)) = true) :
    ToLower mapLower s = lowerASCII s := by
  unfold ToLower
  rw [if_pos h]
  cases hu : s.any isUpperASCII
  · exact (lowerASCII_of_no_upper s hu).symm
  · rfl

/-- A case variant of a lower-case ASCII string is ASCII, and the ASCII loop
takes it to that string. -/
theorem caseVariant_lower (s l : string) (hv : caseVariant s l = true)
    (h1 : l.all (fun c => decide (c < RuneSelf)) = true) (h2 : l.any isUpperASCII = false) :
    s.all (fun c => decide (c < RuneSelf)) = true ∧ lowerASCII s = l := by
  induction s generalizing l with
  | nil =>
    cases l with
    | nil => exact ⟨rfl, rfl⟩
    | cons d l => simp [caseVariant] at hv
  | cons c s ih =>
    cases l with
    | nil => simp [caseVariant] at hv
    | cons d l =>
      simp only [caseVariant, Bool.and_eq_true] at hv
      simp only [List.all_cons, Bool.and_eq_true, decide_eq_true_eq] at h1
      simp only [List.any_cons, Bool.or_eq_false_iff] at h2
      obtain ⟨ha, hb⟩ := ih l hv.2 h1.2 h2.2
      have hd := h2.1
      have hcd := hv.1
      have hlt := h1.1
      simp only [sameLetter, isUpperASCII, RuneSelf, Bool.or_eq_true, Bool.and_eq_true,
        decide_eq_true_eq, beq_iff_eq, Bool.and_eq_false_iff, decide_eq_false_iff_not]
        at hd hcd hlt
      refine ⟨?_, ?_⟩
      · simp only [List.all_cons, Bool.and_eq_true, decide_eq_true_eq, RuneSelf]
        exact ⟨by omega, ha⟩
      · show (if isUpperASCII c = true then c + (97 - 65) else c) :: lowerASCII s = d :: l
        rw [hb]
        refine congrArg (fun x => x :: l) ?_
        simp only [isUpperASCII, Bool.and_eq_true, decide_eq_true_eq]
        split_ifs <;> omega

/-- Every expression of the three cases is ASCII without upper-case letters. -/
theorem cases_are_lower :
    ∀ l ∈ caseTrue ++ caseFalse ++ caseNone,
      l.all (fun c => decide (c < RuneSelf)) = true ∧ l.any isUpperASCII = false := by
  decide

/-- The strings that are their own lowered form and that `Set` accepts are the
expressions of the three cases. -/
theorem lower_accepted_iff (mapLower : string → string) (ts : TriState) (l : string) :
    (ToLower mapLower l = l ∧ (Set mapLower ts l).2 = none) ↔
      l ∈ caseTrue ++ caseFalse ++ caseNone := by
  constructor
  · rintro ⟨h1, h2⟩
    have h3 := (Set_snd_eq_none_iff mapLower ts l).1 h2
    rw [h1] at h3
    exact h3
  · intro h
    have hl := cases_are_lower l h
    have h1 := ToLower_of_lower mapLower l hl.1 hl.2
    exact ⟨h1, (Set_snd_eq_none_iff mapLower ts l).2 (h1.symm ▸ h)⟩

/-- The three case lists hold 23 expressions, no two of them equal. -/
theorem cases_card :
    (caseTrue ++ caseFalse ++ caseNone).toFinset.card = 23 := by
  rw [List.toFinset_card_of_nodup (by decide)]
  rfl

/-- After a `Set` that returns no error the target holds one of the three
members. -/
theorem Set_ok_member (mapLower : string → string) (ts : TriState) (s : string)
    (h : (Set mapLower ts s).2 = none) :
    (Set mapLower ts s).1 = None ∨ (Set mapLower ts s).1 = False ∨
      (Set mapLower ts s).1 = True := by
  have hm := (Set_snd_eq_none_iff mapLower ts s).1 h
  simp only [List.mem_append] at hm
  rcases hm with (hm | hm) | hm
  · rw [Set_of_mem_caseTrue mapLower ts s hm]; exact Or.inr (Or.inr rfl)
  · rw [Set_of_mem_caseFalse mapLower ts s hm]; exact Or.inr (Or.inl rfl)
  · rw [Set_of_mem_caseNone mapLower ts s hm]; exact Or.inl rfl

/-- After a `Set` that returns an error the target holds what it held. -/
theorem Set_err_unchanged (mapLower : string → string) (ts : TriState) (s : string)
    (h : (Set mapLower ts s).2 ≠ none) :
    Set mapLower ts s = (ts, some ErrBadTriStateValue) :=
  Set_of_not_mem mapLower ts s (fun hm => h ((Set_snd_eq_none_iff mapLower ts s).2 hm))

/-- The cell written by `store` holds the stored value. -/
theorem store_cell_same (h : Heap) (p : Nat) (val : TriState) :
    (store h p val).cell p = val := by
  simp only [store, if_true]

/-- The other cells are as they were before `store`. -/
theorem store_cell_other (h : Heap) (p q : Nat) (val : TriState) (hq : q ≠ p) :
    (store h p val).cell q = h.cell q := by
  simp only [store, hq, if_false]

/-- The switch of `Set` is the ordered switch over its three cases. -/
theorem Set_eq_SetCases (mapLower : string → string) (ts : TriState) (s : string) :
    Set mapLower ts s =
      SetCases [(caseTrue, True), (caseFalse, False), (caseNone, None)] mapLower ts s := by
  unfold Set SetCases
  simp only [switchOn]
  split_ifs <;> rfl

/-- An ordered switch whose cases are pairwise disjoint gives the same value
in whatever order the cases are tried. -/
theorem switchOn_perm (cs cs' : List (List string × TriState)) (hp : List.Perm cs cs') :
    List.Pairwise (fun x y => ∀ l : string, ¬ (l ∈ x.1 ∧ l ∈ y.1)) cs →
      ∀ l : string, switchOn cs l = switchOn cs' l := by
  induction hp with
  | nil => intro _ l; rfl
  | cons x _ ih =>
    intro hpw l
    obtain ⟨c, v⟩ := x
    simp only [switchOn]
    rw [ih (List.pairwise_cons.1 hpw).2 l]
  | swap x y rest =>
    intro hpw l
    obtain ⟨c, v⟩ := x
    obtain ⟨c', v'⟩ := y
    have hxy := (List.pairwise_cons.1 hpw).1 (c, v) (List.mem_cons_self _ _) l
    simp only [switchOn]
    by_cases h1 : l ∈ c
    · by_cases h2 : l ∈ c'
      · exact absurd ⟨h2, h1⟩ hxy
      · simp only [h1, h2, if_true, if_false]
    · simp only [h1, if_false]
  | trans p1 _ ih1 ih2 =>
    intro hpw l
    rw [ih1 hpw l]
    exact ih2 (p1.pairwise hpw (fun hr l hl => hr l ⟨hl.2, hl.1⟩)) l

/-- The three cases of the switch in `Set` are pairwise disjoint. -/
theorem cases_pairwise_disjoint :
    List.Pairwise (fun x y => ∀ l : string, ¬ (l ∈ x.1 ∧ l ∈ y.1))
      [(caseTrue, True), (caseFalse, False), (caseNone, None)] := by
  have h1 : ∀ x ∈ caseFalse, x ∉ caseTrue := by decide
  have h2 : ∀ x ∈ caseNone, x ∉ caseTrue := by decide
  have h3 : ∀ x ∈ caseNone, x ∉ caseFalse := by decide
  refine List.pairwise_cons.2 ⟨?_, List.pairwise_cons.2 ⟨?_, List.pairwise_cons.2
    ⟨fun _ h => absurd h (List.not_mem_nil _), List.Pairwise.nil⟩⟩⟩
  · intro y hy l hl
    simp only [List.mem_cons, List.mem_singleton, List.not_mem_nil, or_false] at hy
    rcases hy with rfl | rfl
    · exact h1 l hl.2 hl.1
    · exact h2 l hl.2 hl.1
  · intro y hy l hl
    simp only [List.mem_cons, List.mem_singleton, List.not_mem_nil, or_false] at hy
    subst hy
    exact h3 l hl.2 hl.1

/-- The error result of `Set` does not depend on what the target held. -/
theorem Set_snd_indep (mapLower : string → string) (s : string) (a b : TriState) :
    (Set mapLower a s).2 = (Set mapLower b s).2 := by
  by_cases hm : ToLower mapLower s ∈ caseTrue ++ caseFalse ++ caseNone
  · simp only [List.mem_append] at hm
    rcases hm with (hm | hm) | hm
    · rw [Set_of_mem_caseTrue mapLower a s hm, Set_of_mem_caseTrue mapLower b s hm]
    · rw [Set_of_mem_caseFalse mapLower a s hm, Set_of_mem_caseFalse mapLower b s hm]
    · rw [Set_of_mem_caseNone mapLower a s hm, Set_of_mem_caseNone mapLower b s hm]
  · rw [Set_of_not_mem mapLower a s hm, Set_of_not_mem mapLower b s hm]

/-- The value left by a `Set` that returns no error does not depend on what
the target held. -/
theorem Set_fst_indep (mapLower : string → string) (s : string) (a b : TriState)
    (h : (Set mapLower a s).2 = none) : (Set mapLower a s).1 = (Set mapLower b s).1 := by
  have hm := (Set_snd_eq_none_iff mapLower a s).1 h
  simp only [List.mem_append] at hm
  rcases hm with (hm | hm) | hm
  · rw [Set_of_mem_caseTrue mapLower a s hm, Set_of_mem_caseTrue mapLower b s hm]
  · rw [Set_of_mem_caseFalse mapLower a s hm, Set_of_mem_caseFalse mapLower b s hm]
  · rw [Set_of_mem_caseNone mapLower a s hm, Set_of_mem_caseNone mapLower b s hm]

/-- On a value other than the three members `String` gives the empty string. -/
theorem String_nonmember (ts : TriState) (h0 : ts ≠ 0) (h1 : ts ≠ 1) (h2 : ts ≠ 2) :
    String ts = str "" := by
  unfold String
  rw [if_neg h0, if_neg h1, if_neg h2]

/-- The empty string is rejected by `Set`. -/
theorem Set_empty (mapLower : string → string) (d : TriState) :
    Set mapLower d (str "") = (d, some ErrBadTriStateValue) :=
  Set_of_not_mem mapLower d (str "")
    ((ToLower_of_lower mapLower (str "") (by decide) (by decide)).symm ▸ (by decide))

/-! ## Claims -/

/-- C1: for every string whose lowered form is one of "1", "t", "true", "y",
"yes", `Set` returns no error and leaves the target equal to `True`; for "0",
"f", "false", "n", "no" the target becomes `False`; for "-1", "u", "unknown",
"e", "either", "b", "both", "a", "all", "any", "none", "null", "nil" the target
becomes `None`; whatever the target held before. -/
theorem Set_recognized_literals (mapLower : string → string) (ts : TriState) (s : string) :
    (ToLower mapLower s ∈ [str "1", str "t", str "true", str "y", str "yes"] →
        Set mapLower ts s = (True, none)) ∧
    (ToLower mapLower s ∈ [str "0", str "f", str "false", str "n", str "no"] →
        Set mapLower ts s = (False, none)) ∧
    (ToLower mapLower s ∈ [str "-1", str "u", str "unknown", str "e", str "either",
          str "b", str "both", str "a", str "all", str "any", str "none", str "null",
          str "nil"] →
        Set mapLower ts s = (None, none)) := by
  refine ⟨fun h => ?_, fun h => ?_, fun h => ?_⟩
  · exact Set_of_mem_caseTrue mapLower ts s
      ((by decide : ∀ x ∈ [str "1", str "t", str "true", str "y", str "yes"],
          x ∈ caseTrue) _ h)
  · exact Set_of_mem_caseFalse mapLower ts s
      ((by decide : ∀ x ∈ [str "0", str "f", str "false", str "n", str "no"],
          x ∈ caseFalse) _ h)
  · exact Set_of_mem_caseNone mapLower ts s
      ((by decide : ∀ x ∈ [str "-1", str "u", str "unknown", str "e", str "either",
          str "b", str "both", str "a", str "all", str "any", str "none", str "null",
          str "nil"], x ∈ caseNone) _ h)

/-- C1, at concrete inputs: "YES" sets a target holding `False` to `True`, "No"
sets a target holding `True` to `False`, "Unknown" sets it to `None`. -/
theorem Set_recognized_literals_witness :
    Set id False (str "YES") = (True, none) ∧
    Set id True (str "No") = (False, none) ∧
    Set id True (str "Unknown") = (None, none) :=
  ⟨(Set_recognized_literals id False (str "YES")).1 (by decide),
   (Set_recognized_literals id True (str "No")).2.1 (by decide),
   (Set_recognized_literals id True (str "Unknown")).2.2 (by decide)⟩

/-- C2: `Set` returns `ErrBadTriStateValue` if and only if the lowered input
is none of the recognized literals, and `nil` in every other case; so "doug",
"" and "maybe" are rejected, and `ErrBadTriStateValue` is the only error `Set`
returns. -/
theorem Set_error_iff_unrecognized (mapLower : string → string) (ts : TriState) (s : string) :
    ((Set mapLower ts s).2 = some ErrBadTriStateValue ↔
        ToLower mapLower s ∉ [str "1", str "t", str "true", str "y", str "yes",
          str "0", str "f", str "false", str "n", str "no",
          str "-1", str "u", str "unknown", str "e", str "either", str "b", str "both",
          str "a", str "all", str "any", str "none", str "null", str "nil"]) ∧
    ((Set mapLower ts s).2 = none ↔
        ToLower mapLower s ∈ [str "1", str "t", str "true", str "y", str "yes",
          str "0", str "f", str "false", str "n", str "no",
          str "-1", str "u", str "unknown", str "e", str "either", str "b", str "both",
          str "a", str "all", str "any", str "none", str "null", str "nil"]) ∧
    (∀ e : error, (Set mapLower ts s).2 = some e → e = ErrBadTriStateValue) ∧
    (Set mapLower ts (str "doug")).2 = some ErrBadTriStateValue ∧
    (Set mapLower ts (str "")).2 = some ErrBadTriStateValue ∧
    (Set mapLower ts (str "maybe")).2 = some ErrBadTriStateValue := by
  have hperm : List.Perm [str "1", str "t", str "true", str "y", str "yes",
          str "0", str "f", str "false", str "n", str "no",
          str "-1", str "u", str "unknown", str "e", str "either", str "b", str "both",
          str "a", str "all", str "any", str "none", str "null", str "nil"]
        (caseTrue ++ caseFalse ++ caseNone) := by decide
  have hnone := Set_snd_eq_none_iff mapLower ts s
  have honly : ∀ e : error, (Set mapLower ts s).2 = some e → e = ErrBadTriStateValue := by
    intro e he
    by_cases h : ToLower mapLower s ∈ caseTrue ++ caseFalse ++ caseNone
    · rw [hnone.2 h] at he
      exact Option.noConfusion he
    · rw [Set_of_not_mem mapLower ts s h] at he
      exact (Option.some.inj he).symm
  refine ⟨?_, ?_, honly, ?_, ?_, ?_⟩
  · rw [hperm.mem_iff]
    constructor
    · intro he h
      rw [hnone.2 h] at he
      exact Option.noConfusion he
    · intro h
      rw [Set_of_not_mem mapLower ts s h]
  · rw [hperm.mem_iff]
    exact hnone
  · rw [Set_of_not_mem mapLower ts (str "doug")
      ((ToLower_of_lower mapLower (str "doug") (by decide) (by decide)).symm ▸ (by decide))]
  · rw [Set_of_not_mem mapLower ts (str "")
      ((ToLower_of_lower mapLower (str "") (by decide) (by decide)).symm ▸ (by decide))]
  · rw [Set_of_not_mem mapLower ts (str "maybe")
      ((ToLower_of_lower mapLower (str "maybe") (by decide) (by decide)).symm ▸ (by decide))]

/-- C3: whatever the target held and whatever the input, a `Set` that returns
an error leaves the target as it was. -/
theorem Set_error_leaves_target (mapLower : string → string) (v : TriState) (s : string)
    (h : (Set mapLower v s).2 ≠ none) : (Set mapLower v s).1 = v := by
  have h0 : ToLower mapLower s ∉ caseTrue ++ caseFalse ++ caseNone :=
    fun hm => h ((Set_snd_eq_none_iff mapLower v s).2 hm)
  rw [Set_of_not_mem mapLower v s h0]

/-- C3, at a concrete input: `Set("doug")` on a target holding `True` fails and
the target still holds `True`. -/
theorem Set_error_leaves_target_witness :
    (Set id True (str "doug")).2 ≠ none ∧ (Set id True (str "doug")).1 = True :=
  ⟨by decide, Set_error_leaves_target id True (str "doug") (by decide)⟩

/-- C4: for every member `x` of `None`, `False`, `True` and every prior member
`d`, `Set` applied to `x.String()` returns no error and leaves the target equal
to `x`. -/
theorem Set_String_roundtrip (mapLower : string → string) (x d : TriState)
    (hx : x = None ∨ x = False ∨ x = True) (_hd : d = None ∨ d = False ∨ d = True) :
    Set mapLower d (String x) = (x, none) := by
  rcases hx with rfl | rfl | rfl
  · exact Set_of_mem_caseNone mapLower d (String None)
      ((by rfl : ToLower mapLower (String None) = str "none") ▸ (by decide))
  · exact Set_of_mem_caseFalse mapLower d (String False)
      ((by rfl : ToLower mapLower (String False) = str "false") ▸ (by decide))
  · exact Set_of_mem_caseTrue mapLower d (String True)
      ((by rfl : ToLower mapLower (String True) = str "true") ▸ (by decide))

/-- C4, at a concrete input: on a target holding `True`, `Set(False.String())`
leaves `False`. -/
theorem Set_String_roundtrip_witness :
    Set id True (String False) = (False, none) :=
  Set_String_roundtrip id False True (Or.inr (Or.inl rfl)) (Or.inr (Or.inr rfl))

/-- C5: `Set` is case-insensitive: for every recognized lower-case literal `l`
and every string `s` got from `l` by changing the case of some of its letters,
`Set(s)` returns the same error result and the same target value as `Set(l)`. -/
theorem Set_case_insensitive (mapLower : string → string) (ts : TriState) (l s : string)
    (hl : l ∈ [str "1", str "t", str "true", str "y", str "yes",
          str "0", str "f", str "false", str "n", str "no",
          str "-1", str "u", str "unknown", str "e", str "either", str "b", str "both",
          str "a", str "all", str "any", str "none", str "null", str "nil"])
    (hs : caseVariant s l = true) :
    Set mapLower ts s = Set mapLower ts l := by
  have hlow : l.all (fun c => decide (c < RuneSelf)) = true ∧ l.any isUpperASCII = false :=
    (by decide : ∀ x ∈ [str "1", str "t", str "true", str "y", str "yes",
          str "0", str "f", str "false", str "n", str "no",
          str "-1", str "u", str "unknown", str "e", str "either", str "b", str "both",
          str "a", str "all", str "any", str "none", str "null", str "nil"],
        x.all (fun c => decide (c < RuneSelf)) = true ∧ x.any isUpperASCII = false) l hl
  obtain ⟨hascii, hmap⟩ := caseVariant_lower s l hs hlow.1 hlow.2
  apply Set_congr_lower
  rw [ToLower_of_ascii mapLower s hascii, hmap, ToLower_of_lower mapLower l hlow.1 hlow.2]

/-- C5, at concrete inputs: "uNkNoWn" is a case variant of "unknown" and `Set`
treats the two alike. -/
theorem Set_case_insensitive_witness :
    caseVariant (str "uNkNoWn") (str "unknown") = true ∧
    Set id True (str "uNkNoWn") = Set id True (str "unknown") :=
  ⟨by decide,
   Set_case_insensitive id True (str "unknown") (str "uNkNoWn") (by decide) (by decide)⟩

/-- C6: `String` maps `None` to "None", `False` to "False" and `True` to
"True", each a non-empty string, both when called on a value and when called
through a pointer to a variable holding that value. -/
theorem String_members :
    String None = str "None" ∧ String False = str "False" ∧ String True = str "True" ∧
    String None ≠ [] ∧ String False ≠ [] ∧ String True ≠ [] ∧
    (∀ (mem : Nat → TriState) (p : Nat),
      StringPtr (Function.update mem p None) p = str "None" ∧
      StringPtr (Function.update mem p False) p = str "False" ∧
      StringPtr (Function.update mem p True) p = str "True") := by
  refine ⟨by decide, by decide, by decide, by decide, by decide, by decide, ?_⟩
  intro mem p
  simp only [StringPtr, Function.update_same]
  exact ⟨by decide, by decide, by decide⟩

/-- C7: `Match` on `True` returns `b == true`, on `False` returns `b == false`,
and on `None` returns `noneVal` whatever `b` is. -/
theorem Match_table (b noneVal : bool) :
    Match True b noneVal = (b == true) ∧
    Match False b noneVal = (b == false) ∧
    Match None b noneVal = noneVal ∧
    Match True true noneVal = true ∧
    Match False true noneVal = false := by
  cases b <;> cases noneVal <;> decide

/-- C8: `Bool` returns `nil` on `None`, a pointer to `false` on `False` and a
pointer to `true` on `True`. -/
theorem Bool_table :
    Bool None = none ∧ Bool False = some false ∧ Bool True = some true := by
  decide

/-- C9: for every value `ts`, `IsSet` is true exactly when `ts` is not `None`:
false on `None`, true on `False` and on `True`. -/
theorem IsSet_iff_ne_None (ts : TriState) :
    (IsSet ts = true ↔ ts ≠ None) ∧
    IsSet None = false ∧ IsSet False = true ∧ IsSet True = true := by
  refine ⟨?_, by decide, by decide, by decide⟩
  simp only [IsSet, decide_eq_true_eq]

/-- C10: the zero value of `TriState` is the integer 0 and equals `None`; it
differs from `False` and from `True`, and `IsSet` is false on it. -/
theorem zeroValue_is_None :
    zeroValue = (0 : Int) ∧ zeroValue = None ∧ zeroValue ≠ False ∧ zeroValue ≠ True ∧
    IsSet zeroValue = false := by
  decide

/-- C11, as stated, fails: the case lists of `Set` do not hold 20 expressions,
and no set of 20 strings is the set of lower-case strings that `Set` accepts. -/
theorem Set_accepted_not_20 :
    (caseTrue ++ caseFalse ++ caseNone).length ≠ 20 ∧
    ¬ ∃ F : Finset string, F.card = 20 ∧
        ∀ l : string, l ∈ F ↔ (ToLower id l = l ∧ (Set id None l).2 = none) := by
  refine ⟨by decide, ?_⟩
  rintro ⟨F, hcard, hF⟩
  have hEq : F = (caseTrue ++ caseFalse ++ caseNone).toFinset := by
    ext l
    rw [hF l, lower_accepted_iff id None l, List.mem_toFinset]
  rw [hEq, cases_card] at hcard
  exact absurd hcard (by decide)

/-- C11, amended: the case lists of `Set` hold exactly 23 expressions, no two of
them equal, and there are exactly 23 lower-case strings (strings that are
their own lowered form) for which `Set` returns no error. -/
theorem Set_accepted_23 (mapLower : string → string) (ts : TriState) :
    (caseTrue ++ caseFalse ++ caseNone).length = 23 ∧
    (caseTrue ++ caseFalse ++ caseNone).Nodup ∧
    ∃ F : Finset string, F.card = 23 ∧
        ∀ l : string, l ∈ F ↔ (ToLower mapLower l = l ∧ (Set mapLower ts l).2 = none) := by
  refine ⟨by decide, by decide, (caseTrue ++ caseFalse ++ caseNone).toFinset, cases_card, ?_⟩
  intro l
  rw [lower_accepted_iff mapLower ts l, List.mem_toFinset]

/-- C12, as stated, fails: "any" is not in the list of the doc comment of `Set`,
yet `Set("any")` returns no error and leaves `None`. -/
theorem Set_any_not_in_doc :
    ToLower id (str "any") ∉ [str "1", str "t", str "true", str "y", str "yes",
        str "0", str "f", str "false", str "n", str "no",
        str "-1", str "u", str "unknown", str "e", str "either", str "b", str "both",
        str "a", str "all", str "none", str "null", str "nil"] ∧
    Set id True (str "any") = (None, none) ∧
    (Set id True (str "any")).2 ≠ some ErrBadTriStateValue := by
  decide

/-- C12, amended: the strings that `Set` accepts are exactly those of the doc
comment together with "any", case-insensitively; "any" gives `None`; and for
every string whose lowered form is not in that list `Set` returns
`ErrBadTriStateValue`. -/
theorem Set_accepts_doc_and_any (mapLower : string → string) (ts : TriState) (s : string) :
    ((Set mapLower ts s).2 = none ↔
        ToLower mapLower s ∈ [str "1", str "t", str "true", str "y", str "yes",
          str "0", str "f", str "false", str "n", str "no",
          str "-1", str "u", str "unknown", str "e", str "either", str "b", str "both",
          str "a", str "all", str "none", str "null", str "nil", str "any"]) ∧
    (ToLower mapLower s ∉ [str "1", str "t", str "true", str "y", str "yes",
          str "0", str "f", str "false", str "n", str "no",
          str "-1", str "u", str "unknown", str "e", str "either", str "b", str "both",
          str "a", str "all", str "none", str "null", str "nil", str "any"] →
        Set mapLower ts s = (ts, some ErrBadTriStateValue)) ∧
    (ToLower mapLower s = str "any" → Set mapLower ts s = (None, none)) ∧
    (∀ l ∈ [str "1", str "t", str "true", str "y", str "yes",
          str "0", str "f", str "false", str "n", str "no",
          str "-1", str "u", str "unknown", str "e", str "either", str "b", str "both",
          str "a", str "all", str "none", str "null", str "nil", str "any"],
        caseVariant s l = true → (Set mapLower ts s).2 = none) := by
  have hperm : List.Perm [str "1", str "t", str "true", str "y", str "yes",
          str "0", str "f", str "false", str "n", str "no",
          str "-1", str "u", str "unknown", str "e", str "either", str "b", str "both",
          str "a", str "all", str "none", str "null", str "nil", str "any"]
        (caseTrue ++ caseFalse ++ caseNone) := by decide
  refine ⟨?_, ?_, ?_, ?_⟩
  · rw [hperm.mem_iff]
    exact Set_snd_eq_none_iff mapLower ts s
  · rw [hperm.mem_iff]
    exact Set_of_not_mem mapLower ts s
  · intro h
    exact Set_of_mem_caseNone mapLower ts s (h ▸ (by decide))
  · intro l hl hv
    have hmem := hperm.mem_iff.1 hl
    have hlow := cases_are_lower l hmem
    obtain ⟨hascii, hmap⟩ := caseVariant_lower s l hv hlow.1 hlow.2
    rw [Set_snd_eq_none_iff, ToLower_of_ascii mapLower s hascii, hmap]
    exact hmem

/-- C13, as stated, fails: the default value 7 is of type `TriState`, and
after `newTriState` and after `FlagVarPFS` with that default the variable holds
7, which is none of `None`, `False`, `True`. -/
theorem newTriState_stores_nonmember :
    (newTriState ⟨fun _ => None, 1⟩ 7 0).1.cell 0 = 7 ∧
    (FlagVarPFS (fun (_ : Unit) _ _ _ _ _ => ()) () ⟨fun _ => None, 1⟩ 0
        (str "tristate") (str "t") 7 (str "tristate flag")).2.cell 0 = 7 ∧
    ¬ ((7 : TriState) = None ∨ (7 : TriState) = False ∨ (7 : TriState) = True) := by
  decide

/-- C13, amended: `Set` keeps a variable among `None`, `False`, `True`: a target
that holds one of them before `Set` holds one of them afterwards, and after a
`Set` that returns no error the target holds one of them whatever it held
before; `newTriState` and `FlagVarPFS` store the default as it is given, so
the variable holds one of the three afterwards exactly when the default is
one of them. -/
theorem Set_keeps_member {FS : Type}
    (VarP : FS → Heap → Nat → string → string → string → FS) (fs : FS)
    (mapLower : string → string) (ts : TriState) (s : string)
    (h : Heap) (d : TriState) (p : Nat) (name shorthand usage : string) :
    ((ts = None ∨ ts = False ∨ ts = True) →
        ((Set mapLower ts s).1 = None ∨ (Set mapLower ts s).1 = False ∨
          (Set mapLower ts s).1 = True)) ∧
    ((Set mapLower ts s).2 = none →
        ((Set mapLower ts s).1 = None ∨ (Set mapLower ts s).1 = False ∨
          (Set mapLower ts s).1 = True)) ∧
    (newTriState h d p).1.cell p = d ∧
    (FlagVarPFS VarP fs h p name shorthand d usage).2.cell p = d ∧
    (((FlagVarPFS VarP fs h p name shorthand d usage).2.cell p = None ∨
        (FlagVarPFS VarP fs h p name shorthand d usage).2.cell p = False ∨
        (FlagVarPFS VarP fs h p name shorthand d usage).2.cell p = True) ↔
      (d = None ∨ d = False ∨ d = True)) := by
  have hcell : (FlagVarPFS VarP fs h p name shorthand d usage).2.cell p = d :=
    store_cell_same h p d
  refine ⟨?_, Set_ok_member mapLower ts s, store_cell_same h p d, hcell, ?_⟩
  · intro hts
    by_cases he : (Set mapLower ts s).2 = none
    · exact Set_ok_member mapLower ts s he
    · rw [Set_err_unchanged mapLower ts s he]
      exact hts
  · rw [hcell]

/-- C13 amended, at concrete inputs: "doug" on a target holding `False` leaves
a member, and registering with the default `True` leaves `True` in the
variable. -/
theorem Set_keeps_member_witness :
    ((Set id False (str "doug")).1 = None ∨ (Set id False (str "doug")).1 = False ∨
        (Set id False (str "doug")).1 = True) ∧
    (FlagVarPFS (fun (_ : Unit) _ _ _ _ _ => ()) () ⟨fun _ => None, 1⟩ 0
        (str "tristate") (str "t") True (str "tristate flag")).2.cell 0 = True :=
  ⟨(Set_keeps_member (fun (_ : Unit) _ _ _ _ _ => ()) () id False (str "doug")
      ⟨fun _ => None, 1⟩ True 0 (str "tristate") (str "t") (str "tristate flag")).1
      (Or.inr (Or.inl rfl)),
   (Set_keeps_member (fun (_ : Unit) _ _ _ _ _ => ()) () id False (str "doug")
      ⟨fun _ => None, 1⟩ True 0 (str "tristate") (str "t") (str "tristate flag")).2.2.2.1⟩

/-- C14: the three states are mutually reachable through `Set`: for every two
members `a` and `b` there is an input on which `Set`, on a target holding `a`,
returns no error and leaves `b`. -/
theorem Set_reaches_every_member (mapLower : string → string) (a b : TriState)
    (_ha : a = None ∨ a = False ∨ a = True) (hb : b = None ∨ b = False ∨ b = True) :
    ∃ s : string, Set mapLower a s = (b, none) := by
  rcases hb with rfl | rfl | rfl
  · exact ⟨str "none", Set_of_mem_caseNone mapLower a (str "none")
      ((ToLower_of_lower mapLower (str "none") (by decide) (by decide)).symm ▸ (by decide))⟩
  · exact ⟨str "false", Set_of_mem_caseFalse mapLower a (str "false")
      ((ToLower_of_lower mapLower (str "false") (by decide) (by decide)).symm ▸ (by decide))⟩
  · exact ⟨str "true", Set_of_mem_caseTrue mapLower a (str "true")
      ((ToLower_of_lower mapLower (str "true") (by decide) (by decide)).symm ▸ (by decide))⟩

/-- C14, at a concrete input: from a target holding `True` some input leaves
`None`. -/
theorem Set_reaches_every_member_witness :
    ∃ s : string, Set id True s = (None, none) :=
  Set_reaches_every_member id True None (Or.inr (Or.inr rfl)) (Or.inl rfl)

/-- C15: `newTriState(d, p)` returns `p` itself and overwrites `*p` with `d`,
whatever the variable held, leaving every other variable as it was; so after
each of the four functions that take the variable it holds `d`, the flag set
is given `p` itself, and each of the four functions that return a pointer
returns a fresh variable holding `d`. -/
theorem newTriState_binds_default {FS : Type}
    (VarP : FS → Heap → Nat → string → string → string → FS) (fs : FS)
    (h : Heap) (d : TriState) (p : Nat) (name shorthand usage : string) :
    (newTriState h d p).2 = p ∧
    (newTriState h d p).1.cell p = d ∧
    (∀ q : Nat, q ≠ p → (newTriState h d p).1.cell q = h.cell q) ∧
    (FlagVarPFS VarP fs h p name shorthand d usage).1 =
        VarP fs (FlagVarPFS VarP fs h p name shorthand d usage).2 p name shorthand usage ∧
    (FlagVarPFS VarP fs h p name shorthand d usage).2.cell p = d ∧
    (FlagVarFS VarP fs h p name d usage).2.cell p = d ∧
    (FlagVarP VarP fs h p name shorthand d usage).2.cell p = d ∧
    (FlagVar VarP fs h p name d usage).2.cell p = d ∧
    (FlagPFS VarP fs h name shorthand d usage).2.2 = h.next ∧
    (FlagPFS VarP fs h name shorthand d usage).2.1.next = h.next + 1 ∧
    (FlagPFS VarP fs h name shorthand d usage).2.1.cell
        (FlagPFS VarP fs h name shorthand d usage).2.2 = d ∧
    (∀ q : Nat, q < h.next →
        (FlagPFS VarP fs h name shorthand d usage).2.1.cell q = h.cell q) ∧
    (FlagFS VarP fs h name d usage).2.1.cell (FlagFS VarP fs h name d usage).2.2 = d ∧
    (FlagP VarP fs h name shorthand d usage).2.1.cell
        (FlagP VarP fs h name shorthand d usage).2.2 = d ∧
    (Flag VarP fs h name d usage).2.1.cell (Flag VarP fs h name d usage).2.2 = d := by
  refine ⟨rfl, store_cell_same h p d, fun q hq => store_cell_other h p q d hq, rfl,
    store_cell_same h p d, store_cell_same h p d, store_cell_same h p d,
    store_cell_same h p d, rfl, rfl, store_cell_same _ _ d, ?_,
    store_cell_same _ _ d, store_cell_same _ _ d, store_cell_same _ _ d⟩
  intro q hq
  have hne : q ≠ h.next := Nat.ne_of_lt hq
  show (store (new h).1 h.next d).cell q = h.cell q
  rw [store_cell_other _ _ _ _ hne]
  simp only [new, hne, if_false]

/-- C16: the outcome of `Set` depends only on its input: on targets holding
`a` and `b` it returns the same error result, and when that result is `nil`
both targets end with the same value. -/
theorem Set_independent_of_target (mapLower : string → string) (s : string)
    (a b : TriState) :
    (Set mapLower a s).2 = (Set mapLower b s).2 ∧
    ((Set mapLower a s).2 = none → (Set mapLower a s).1 = (Set mapLower b s).1) :=
  ⟨Set_snd_indep mapLower s a b, Set_fst_indep mapLower s a b⟩

/-- C17: the three case lists of `Set` are pairwise disjoint, and `Set` is the
same function whatever the order in which its three cases are tried. -/
theorem Set_cases_disjoint (mapLower : string → string) (ts : TriState) (s : string) :
    (∀ l : string, ¬ (l ∈ caseTrue ∧ l ∈ caseFalse) ∧ ¬ (l ∈ caseTrue ∧ l ∈ caseNone) ∧
        ¬ (l ∈ caseFalse ∧ l ∈ caseNone)) ∧
    (∀ cs : List (List string × TriState),
        List.Perm cs [(caseTrue, True), (caseFalse, False), (caseNone, None)] →
        SetCases cs mapLower ts s = Set mapLower ts s) := by
  constructor
  · intro l
    exact ⟨fun hl => (by decide : ∀ x ∈ caseFalse, x ∉ caseTrue) l hl.2 hl.1,
      fun hl => (by decide : ∀ x ∈ caseNone, x ∉ caseTrue) l hl.2 hl.1,
      fun hl => (by decide : ∀ x ∈ caseNone, x ∉ caseFalse) l hl.2 hl.1⟩
  · intro cs hp
    rw [Set_eq_SetCases]
    unfold SetCases
    rw [switchOn_perm _ _ hp.symm cases_pairwise_disjoint (ToLower mapLower s)]

/-- C17, at a concrete input: with the cases tried in the order None, True,
False the input "No" gives what `Set` gives. -/
theorem Set_cases_disjoint_witness :
    SetCases [(caseNone, None), (caseTrue, True), (caseFalse, False)] id True (str "No") =
      Set id True (str "No") :=
  (Set_cases_disjoint id True (str "No")).2
    [(caseNone, None), (caseTrue, True), (caseFalse, False)] (by decide)

/-- C18: on every integer value other than 0, 1 and 2 `String` returns the
empty string and `Set` applied to it returns `ErrBadTriStateValue`; the round
trip through `String` and `Set` holds on the three members and on no other
value. -/
theorem String_Set_nonmember (mapLower : string → string) (ts d : TriState)
    (h0 : ts ≠ 0) (h1 : ts ≠ 1) (h2 : ts ≠ 2) :
    String ts = str "" ∧ String ts = [] ∧
    Set mapLower d (String ts) = (d, some ErrBadTriStateValue) ∧
    Set mapLower d (String ts) ≠ (ts, none) := by
  have hs := String_nonmember ts h0 h1 h2
  have he : Set mapLower d (String ts) = (d, some ErrBadTriStateValue) := by
    rw [hs]; exact Set_empty mapLower d
  refine ⟨hs, hs, he, ?_⟩
  rw [he]
  intro hc
  exact Option.noConfusion (congrArg Prod.snd hc)

/-- C18, at a concrete input: the value 7. -/
theorem String_Set_nonmember_witness :
    String 7 = str "" ∧ String 7 = [] ∧
    Set id True (String 7) = (True, some ErrBadTriStateValue) ∧
    Set id True (String 7) ≠ (7, none) :=
  String_Set_nonmember id 7 True (by decide) (by decide) (by decide)

/-- C19: for every value `ts`, `IsSet` is true exactly when `Bool` is not
`nil`; when `IsSet` is true `Match` does not depend on `noneVal` and its
results for `true` and for `false` are each the negation of the other; when
`ts` is `None` both are `noneVal`. -/
theorem IsSet_Bool_Match_agree (ts : TriState) (b noneVal noneVal' : bool) :
    (IsSet ts = true ↔ Bool ts ≠ none) ∧
    (IsSet ts = true → Match ts b noneVal = Match ts b noneVal') ∧
    (IsSet ts = true → Match ts true noneVal = !(Match ts false noneVal)) ∧
    (ts = None → Match ts true noneVal = noneVal ∧ Match ts false noneVal = noneVal) := by
  by_cases h0 : ts = None
  · subst h0
    refine ⟨by decide, fun h => absurd h (by decide), fun h => absurd h (by decide),
      fun _ => ⟨rfl, rfl⟩⟩
  · by_cases h1 : ts = False
    · subst h1
      refine ⟨by decide, fun _ => rfl, fun _ => rfl, fun h => absurd h (by decide)⟩
    · by_cases h2 : ts = True
      · subst h2
        refine ⟨by decide, fun _ => rfl, fun _ => rfl, fun h => absurd h (by decide)⟩
      · have hB : Bool ts = some false := by
          unfold Bool
          rw [if_neg h0, if_neg h1, if_neg h2]
        have hI : IsSet ts = true := by
          simp only [IsSet, decide_eq_true_eq]
          exact h0
        refine ⟨?_, ?_, ?_, fun h => absurd h h0⟩
        · rw [hB]
          exact ⟨fun _ hc => Option.noConfusion hc, fun _ => hI⟩
        · intro _
          simp only [Match, hB]
        · intro _
          simp only [Match, hB]
          rfl

/-- C19, at a concrete input: on `False` the helpers agree, and `Match` with
`true` is the negation of `Match` with `false`. -/
theorem IsSet_Bool_Match_agree_witness :
    Match False true true = Match False true false ∧
    Match False true true = !(Match False false true) :=
  ⟨(IsSet_Bool_Match_agree False true true false).2.1 (by decide),
   (IsSet_Bool_Match_agree False true true false).2.2.1 (by decide)⟩

end tristate
